import Mathlib

/-!
# Verification of the WarpX PSATD field-solver specification

Shallow embedding of the parts of the WarpX repository relevant to the
frozen claims:

* `PsatdAlgorithmJConstantInTime` (src/Source/FieldSolver/SpectralSolver/
  SpectralAlgorithms/PsatdAlgorithmJConstantInTime.H).  Only the class
  declaration is present in the repository sample; the formula bodies of
  `pushSpectralFields`, `InitializeSpectralCoefficients` and
  `CurrentCorrection` live in the missing .cpp file, so they are modelled
  from the specification (spec.md sections 4.2 - 4.5, 7, 8), as marked on
  each definition.
* `ablastr::fields::computePhi` (src/Source/ablastr/fields/PoissonSolver.H),
  whose in-place scaling of the caller's charge density is embedded from the
  source.
* `SmartCopy::operator()` (src/unnamed/part_001), embedded from the source;
  the component-name matching of `getSmartCopyTag` (SmartUtils.H, absent)
  is modelled from the documented behaviour quoted in the source file.

All machine reals are modelled as Lean reals, complex spectral data as
Lean complex numbers; per-mode work is independent (spec section 5), so
operations are embedded per Fourier mode.
-/

namespace WarpX

/-- A three-component real wavevector / velocity, one Fourier mode's `k`
(or the Galilean velocity `v_galilean`). -/
@[ext] structure Vec3 where
  x : ℝ
  y : ℝ
  z : ℝ

instance : Zero Vec3 := ⟨⟨0, 0, 0⟩⟩

noncomputable instance : DecidableEq Vec3 := Classical.decEq Vec3

/-- Dot product of two `Vec3`. -/
def Vec3.dot (a b : Vec3) : ℝ := a.x * b.x + a.y * b.y + a.z * b.z

/-- Squared Euclidean norm of a wavevector. -/
def knormSq (k : Vec3) : ℝ := k.x ^ 2 + k.y ^ 2 + k.z ^ 2

/-- Euclidean norm of a wavevector (the `k_norm` of the solver kernels). -/
noncomputable def knorm (k : Vec3) : ℝ := Real.sqrt (knormSq k)

/-- One Fourier mode's slice of a `SpectralFieldData`: one complex value per
`SpectralFieldIndex` slot {Ex,Ey,Ez,Bx,By,Bz,Jx,Jy,Jz,rho_old,rho_new,F,G}
(spec section 3).  `F`, `G` are meaningful only when divergence cleaning is
enabled; the slots are always present in the model and left untouched when
the corresponding flag is off. -/
@[ext] structure SpectralFields where
  Ex : ℂ
  Ey : ℂ
  Ez : ℂ
  Bx : ℂ
  By : ℂ
  Bz : ℂ
  Jx : ℂ
  Jy : ℂ
  Jz : ℂ
  rho_old : ℂ
  rho_new : ℂ
  F : ℂ
  G : ℂ

/-- `k . J` of one mode (real wavevector against the complex current). -/
def kdotJ (k : Vec3) (f : SpectralFields) : ℂ :=
  (k.x : ℂ) * f.Jx + (k.y : ℂ) * f.Jy + (k.z : ℂ) * f.Jz

/-- Modelled from the spec: `CurrentCorrection` of
`PsatdAlgorithmJConstantInTime` (the .cpp body is not in src).  Spec
section 4.4: "For each mode with nonzero k, subtract from J its component
along k that is inconsistent with the discretized charge-density time
derivative; leave the k=0 mode ... unchanged", with the target relation
"k.J must equal -(rho_new-rho_old)/dt" (spec section 8).  The subtracted
component along `k` is `projCoef * k`. -/
noncomputable def projCoef (dt : ℝ) (k : Vec3) (f : SpectralFields) : ℂ :=
  (kdotJ k f + (f.rho_new - f.rho_old) / (dt : ℂ)) / ((knormSq k : ℝ) : ℂ)

/-- Modelled from the spec: per-mode `CurrentCorrection` (spec section 4.4).
Mutation in place of the three `J` slots is modelled by returning the
updated record; all other slots are carried through unchanged. -/
noncomputable def CurrentCorrection (dt : ℝ) (k : Vec3) (f : SpectralFields) :
    SpectralFields :=
  if k = 0 then f
  else
    { f with
      Jx := f.Jx - projCoef dt k f * (k.x : ℂ)
      Jy := f.Jy - projCoef dt k f * (k.y : ℂ)
      Jz := f.Jz - projCoef dt k f * (k.z : ℂ) }

/-- Construction-time boolean capability flags of the solver
(spec section 6): `update_with_rho`, `dive_cleaning`, `divb_cleaning`. -/
structure PushFlags where
  update_with_rho : Bool
  dive_cleaning : Bool
  divb_cleaning : Bool

/-- One mode's entry of the CoefficientSet (spec section 3): the real pair
`(C, S_ck)` and the complex coefficients `T2, X1..X4`. -/
@[ext] structure Coeffs where
  C : ℝ
  S_ck : ℝ
  T2 : ℂ
  X1 : ℂ
  X2 : ℂ
  X3 : ℂ
  X4 : ℂ

/-- Modelled from the spec: non-Galilean closed form of `X1` at `k ≠ 0`
(standard PSATD source coefficient entering the `B` update; spec
section 4.2 pins `C`, `S_ck`, `T2` and demands analytic limits at the
removable singularities). -/
noncomputable def X1_std (c eps0 dt kn : ℝ) : ℂ :=
  (((1 - Real.cos (c * kn * dt)) / (eps0 * c ^ 2 * kn ^ 2) : ℝ) : ℂ)

/-- Modelled from the spec: non-Galilean closed form of `X2` at `k ≠ 0`
(weight of `rho_new` in the `E` update). -/
noncomputable def X2_std (c eps0 dt kn : ℝ) : ℂ :=
  (((1 - Real.sin (c * kn * dt) / (c * kn * dt)) / (eps0 * kn ^ 2) : ℝ) : ℂ)

/-- Modelled from the spec: non-Galilean closed form of `X3` at `k ≠ 0`
(weight of `rho_old` in the `E` update). -/
noncomputable def X3_std (c eps0 dt kn : ℝ) : ℂ :=
  (((Real.cos (c * kn * dt) - Real.sin (c * kn * dt) / (c * kn * dt)) /
    (eps0 * kn ^ 2) : ℝ) : ℂ)

/-- Modelled from the spec: non-Galilean closed form of `X4` at `k ≠ 0`
(weight of `J` in the `E` update), `X4 = -S_ck/eps0`. -/
noncomputable def X4_std (c eps0 dt kn : ℝ) : ℂ :=
  ((-(Real.sin (c * kn * dt) / (c * kn)) / eps0 : ℝ) : ℂ)

/-- Modelled from the spec: the zero-wavevector mode of the CoefficientSet.
Spec section 3: "the zero-wavevector mode is a removable singularity and
must be assigned its analytic limiting value"; spec section 8 pins
`S_ck = dt` there and, through the k=0 ODE guarantee, `X4 = -dt/eps0`.
`X1..X3` receive the analytic k->0 limits of the standard closed forms
(L'Hopital, spec section 4.2). -/
noncomputable def zeroModeCoeffs (c eps0 dt : ℝ) : Coeffs :=
  { C := 1
    S_ck := dt
    T2 := 1
    X1 := ((dt ^ 2 / (2 * eps0) : ℝ) : ℂ)
    X2 := ((c ^ 2 * dt ^ 2 / (6 * eps0) : ℝ) : ℂ)
    X3 := ((-(c ^ 2 * dt ^ 2) / (3 * eps0) : ℝ) : ℂ)
    X4 := ((-dt / eps0 : ℝ) : ℂ) }

/-- Modelled from the spec: the Galilean-branch closed forms of `X1..X4`.
Spec section 4.2 specifies only their ingredients (they "combine C, S_ck,
a Galilean phase term T2" with removable singularities at `k = 0` and at
the resonance `k.v = 0`) without pinning the closed forms, so the model
abstracts them as parameters; every theorem below holds for all such
forms. -/
structure GalileanForms where
  X1 : ℝ → ℝ → ℝ → Vec3 → Vec3 → ℂ
  X2 : ℝ → ℝ → ℝ → Vec3 → Vec3 → ℂ
  X3 : ℝ → ℝ → ℝ → Vec3 → Vec3 → ℂ
  X4 : ℝ → ℝ → ℝ → Vec3 → Vec3 → ℂ

/-- Modelled from the spec: per-mode body of `InitializeSpectralCoefficients`
of `PsatdAlgorithmJConstantInTime` (declared in the header in src; the
.cpp body is not in src).  Spec section 4.2: `C = cos(c k dt)`,
`S_ck = sin(c k dt)/(c k)` with the `k -> 0` limit `dt`;
`T2 = exp(i (k.v) dt)`; the construction-time flag `m_is_galilean`
(header line 140) dispatches between the Galilean and the non-Galilean
closed-form path for `X1..X4`, the non-Galilean path being taken exactly
when the Galilean velocity is the zero vector. -/
noncomputable def InitializeSpectralCoefficients (gf : GalileanForms)
    (c eps0 : ℝ) (v : Vec3) (dt : ℝ) (k : Vec3) : Coeffs :=
  if k = 0 then zeroModeCoeffs c eps0 dt
  else
    { C := Real.cos (c * knorm k * dt)
      S_ck := Real.sin (c * knorm k * dt) / (c * knorm k)
      T2 := Complex.exp (Complex.I * ((Vec3.dot k v : ℝ) : ℂ) * (dt : ℂ))
      X1 := if v = 0 then X1_std c eps0 dt (knorm k) else gf.X1 c eps0 dt k v
      X2 := if v = 0 then X2_std c eps0 dt (knorm k) else gf.X2 c eps0 dt k v
      X3 := if v = 0 then X3_std c eps0 dt (knorm k) else gf.X3 c eps0 dt k v
      X4 := if v = 0 then X4_std c eps0 dt (knorm k) else gf.X4 c eps0 dt k v }

/-- Modelled from the spec: the coefficient initialization of the
non-Galilean PSATD variant (spec section 4.2 with no Galilean velocity:
`T2 = 1` and the standard closed forms). -/
noncomputable def InitializeSpectralCoefficientsNonGalilean
    (c eps0 dt : ℝ) (k : Vec3) : Coeffs :=
  if k = 0 then zeroModeCoeffs c eps0 dt
  else
    { C := Real.cos (c * knorm k * dt)
      S_ck := Real.sin (c * knorm k * dt) / (c * knorm k)
      T2 := 1
      X1 := X1_std c eps0 dt (knorm k)
      X2 := X2_std c eps0 dt (knorm k)
      X3 := X3_std c eps0 dt (knorm k)
      X4 := X4_std c eps0 dt (knorm k) }

/-- Modelled from the spec: per-mode body of `pushSpectralFields` of
`PsatdAlgorithmJConstantInTime` (declared in the header in src; the .cpp
body is not in src).  Spec section 4.3: for every mode independently,
"new_E = C old_E + S_ck-weighted curl(B) term + Xi-weighted source terms
from J (and rho_new - rho_old T2 if charge-density-based correction is
enabled); new_B = C old_B - S_ck-weighted curl(E) term"; when divergence
cleaning is enabled, `F` and/or `G` are advanced by the same kernel family
and folded back into the E/B update.  Curl terms are `i k x _` in Fourier
space; in-place mutation is modelled by the returned record, the `J` and
rho slots being carried through untouched. -/
noncomputable def pushSpectralFields (c eps0 : ℝ) (co : Coeffs)
    (fl : PushFlags) (k : Vec3) (f : SpectralFields) : SpectralFields :=
  { f with
    Ex := co.T2 * ((co.C : ℂ) * f.Ex +
            Complex.I * (c : ℂ) ^ 2 * (co.S_ck : ℂ) *
              ((k.y : ℂ) * f.Bz - (k.z : ℂ) * f.By)) +
          co.X4 * f.Jx -
          (if fl.update_with_rho then
            Complex.I * (co.X2 * f.rho_new - co.T2 * co.X3 * f.rho_old) * (k.x : ℂ)
          else 0) +
          (if fl.dive_cleaning then
            Complex.I * (c : ℂ) ^ 2 * (co.S_ck : ℂ) * (k.x : ℂ) * f.F
          else 0)
    Ey := co.T2 * ((co.C : ℂ) * f.Ey +
            Complex.I * (c : ℂ) ^ 2 * (co.S_ck : ℂ) *
              ((k.z : ℂ) * f.Bx - (k.x : ℂ) * f.Bz)) +
          co.X4 * f.Jy -
          (if fl.update_with_rho then
            Complex.I * (co.X2 * f.rho_new - co.T2 * co.X3 * f.rho_old) * (k.y : ℂ)
          else 0) +
          (if fl.dive_cleaning then
            Complex.I * (c : ℂ) ^ 2 * (co.S_ck : ℂ) * (k.y : ℂ) * f.F
          else 0)
    Ez := co.T2 * ((co.C : ℂ) * f.Ez +
            Complex.I * (c : ℂ) ^ 2 * (co.S_ck : ℂ) *
              ((k.x : ℂ) * f.By - (k.y : ℂ) * f.Bx)) +
          co.X4 * f.Jz -
          (if fl.update_with_rho then
            Complex.I * (co.X2 * f.rho_new - co.T2 * co.X3 * f.rho_old) * (k.z : ℂ)
          else 0) +
          (if fl.dive_cleaning then
            Complex.I * (c : ℂ) ^ 2 * (co.S_ck : ℂ) * (k.z : ℂ) * f.F
          else 0)
    Bx := co.T2 * ((co.C : ℂ) * f.Bx -
            Complex.I * (co.S_ck : ℂ) * ((k.y : ℂ) * f.Ez - (k.z : ℂ) * f.Ey)) +
          Complex.I * co.X1 * ((k.y : ℂ) * f.Jz - (k.z : ℂ) * f.Jy) +
          (if fl.divb_cleaning then
            Complex.I * (c : ℂ) ^ 2 * (co.S_ck : ℂ) * (k.x : ℂ) * f.G
          else 0)
    By := co.T2 * ((co.C : ℂ) * f.By -
            Complex.I * (co.S_ck : ℂ) * ((k.z : ℂ) * f.Ex - (k.x : ℂ) * f.Ez)) +
          Complex.I * co.X1 * ((k.z : ℂ) * f.Jx - (k.x : ℂ) * f.Jz) +
          (if fl.divb_cleaning then
            Complex.I * (c : ℂ) ^ 2 * (co.S_ck : ℂ) * (k.y : ℂ) * f.G
          else 0)
    Bz := co.T2 * ((co.C : ℂ) * f.Bz -
            Complex.I * (co.S_ck : ℂ) * ((k.x : ℂ) * f.Ey - (k.y : ℂ) * f.Ex)) +
          Complex.I * co.X1 * ((k.x : ℂ) * f.Jy - (k.y : ℂ) * f.Jx) +
          (if fl.divb_cleaning then
            Complex.I * (c : ℂ) ^ 2 * (co.S_ck : ℂ) * (k.z : ℂ) * f.G
          else 0)
    F := if fl.dive_cleaning then
          (co.C : ℂ) * f.F +
            Complex.I * (co.S_ck : ℂ) *
              ((k.x : ℂ) * f.Ex + (k.y : ℂ) * f.Ey + (k.z : ℂ) * f.Ez) -
          ((co.S_ck / eps0 : ℝ) : ℂ) * f.rho_new
        else f.F
    G := if fl.divb_cleaning then
          (co.C : ℂ) * f.G +
            Complex.I * (co.S_ck : ℂ) *
              ((k.x : ℂ) * f.Bx + (k.y : ℂ) * f.By + (k.z : ℂ) * f.Bz)
        else f.G }

/-- Modelled from the spec (section 4.5): the two phases of a solver
instance, {CoefficientsStale, CoefficientsReady}. -/
inductive CoeffPhase
  | CoefficientsStale
  | CoefficientsReady

/-- Modelled from the spec: a solver instance: its phase plus the data
whose change staleness tracks (the time step `m_dt` and Galilean velocity
`m_v_galilean` of the header, lines 134-135). -/
structure SolverInstance where
  phase : CoeffPhase
  dt : ℝ
  v_galilean : Vec3

/-- Modelled from the spec: the events acting on a solver instance's
coefficient state (spec section 4.5): changing the time step, changing
the Galilean velocity, and coefficient (re)initialization. -/
inductive SolverEvent
  | setTimeStep (dt : ℝ)
  | setGalileanVelocity (v : Vec3)
  | initCoefficients

/-- Modelled from the spec (section 4.5): "any change to time step or
Galilean velocity moves it to CoefficientsStale; only CoefficientSet
initialization moves it back to CoefficientsReady". -/
def applyEvent (s : SolverInstance) : SolverEvent → SolverInstance
  | SolverEvent.setTimeStep dt' =>
      { s with dt := dt', phase := CoeffPhase.CoefficientsStale }
  | SolverEvent.setGalileanVelocity v' =>
      { s with v_galilean := v', phase := CoeffPhase.CoefficientsStale }
  | SolverEvent.initCoefficients =>
      { s with phase := CoeffPhase.CoefficientsReady }

/-- Outcome of attempting a push: the advanced fields, or a fatal
precondition violation (spec section 7(b)). -/
inductive PushResult
  | ok (f : SpectralFields)
  | precondViolation

/-- Modelled from the spec: `pushSpectralFields` guarded by the phase
machine: "pushSpectralFields is only valid in CoefficientsReady and must
fail fast (precondition violation) otherwise" (spec section 4.5); the
violation is fatal and never silently recovered (spec section 7(b)). -/
noncomputable def tryPushSpectralFields (gf : GalileanForms) (c eps0 : ℝ)
    (fl : PushFlags) (s : SolverInstance) (k : Vec3) (f : SpectralFields) :
    PushResult :=
  match s.phase with
  | CoeffPhase.CoefficientsStale => PushResult.precondViolation
  | CoeffPhase.CoefficientsReady =>
      PushResult.ok (pushSpectralFields c eps0
        (InitializeSpectralCoefficients gf c eps0 s.v_galilean s.dt k) fl k f)

/-- One mode's entry of the time-averaging coefficient set
(`Psi1, Psi2, Y1..Y4`, header lines 123-124). -/
structure AvgCoeffs where
  Psi1 : ℂ
  Psi2 : ℂ
  Y1 : ℂ
  Y2 : ℂ
  Y3 : ℂ
  Y4 : ℂ

/-- Modelled from the spec: the time-averaging set is "built from the same
C/S_ck/T2 using a different closed-form combination" (spec section 4.2);
the combination itself is not pinned by the spec and is abstracted as a
function of `(C, S_ck, T2)`. -/
structure AvgForms where
  build : ℝ → ℝ → ℂ → AvgCoeffs

/-- The coefficient arrays owned by one solver instance: the always-present
main set and the averaging set, present only when time averaging was
requested (header lines 119-124). -/
structure SolverCoefficients where
  main : Vec3 → Coeffs
  avg : Option (Vec3 → AvgCoeffs)

/-- Modelled from the spec: the constructor's coefficient build
(`InitializeSpectralCoefficients`, and additionally
`InitializeSpectralCoefficientsAveraging` exactly when `time_averaging`
was requested at construction, spec sections 4.2 and 6). -/
noncomputable def buildSolverCoefficients (gf : GalileanForms) (af : AvgForms)
    (c eps0 : ℝ) (v : Vec3) (dt : ℝ) (time_averaging : Bool) :
    SolverCoefficients :=
  { main := fun k => InitializeSpectralCoefficients gf c eps0 v dt k
    avg :=
      if time_averaging then
        some (fun k =>
          af.build (InitializeSpectralCoefficients gf c eps0 v dt k).C
            (InitializeSpectralCoefficients gf c eps0 v dt k).S_ck
            (InitializeSpectralCoefficients gf c eps0 v dt k).T2)
      else none }

/-- The raw (non-averaged) push through a built coefficient set: it reads
only the main coefficients (spec section 4.2: the averaging set is "used
only when the caller requests an averaged field output, not the raw
push"). -/
noncomputable def rawPush (c eps0 : ℝ) (sc : SolverCoefficients)
    (fl : PushFlags) (k : Vec3) (f : SpectralFields) : SpectralFields :=
  pushSpectralFields c eps0 (sc.main k) fl k f

/-- The averaged-output path: the per-mode averaging coefficients it
consumes, present only when time averaging was requested. -/
def averagedCoefficients (sc : SolverCoefficients) (k : Vec3) :
    Option AvgCoeffs :=
  sc.avg.map (fun a => a k)

/-- Per-level effect of `ablastr::fields::computePhi` on the caller's
charge density `rho` (src/Source/ablastr/fields/PoissonSolver.H, lines
173-192), embedded from the source: on the integrated-Green-function path
(`is_solver_igf_on_lev0 && lev==0`) the loop body `continue`s before the
scaling, leaving `rho[lev]` untouched; on every multigrid level it executes
`rho[lev]->mult(-1._rt/ep0)` before the solve and never multiplies back
(the subsequent `mlmg.solve`, interpolation and post-phi steps only read
`rho`).  A `MultiFab` is modelled as a function from cell index `ι` to a
real value; `ep0` (from `ablastr::constant::SI`, whose header is not in
src) is kept as an explicit parameter. -/
noncomputable def computePhiRhoLevel (ι : Type) (is_solver_igf_on_lev0 : Bool) (ep0 : ℝ)
    (lev : ℕ) (rho_lev : ι → ℝ) : ι → ℝ :=
  if is_solver_igf_on_lev0 ∧ lev = 0 then rho_lev
  else fun i => rho_lev i * (-1 / ep0)

/-- The `rho` side-effect of the whole level loop of `computePhi`
(PoissonSolver.H lines 152-324): each iteration writes only `rho[lev]`,
so the levels transform independently. -/
noncomputable def computePhiRho (ι : Type) (is_solver_igf_on_lev0 : Bool) (ep0 : ℝ)
    (n : ℕ) (rho : Fin n → ι → ℝ) : Fin n → ι → ℝ :=
  fun lev => computePhiRhoLevel ι is_solver_igf_on_lev0 ep0 (lev : ℕ) (rho lev)

/-- The two copy loops of `SmartCopy::operator()` (src/unnamed/part_001,
lines 67-121), embedded from the source over a flattened component index
space: a compile-time component `j < NAR` and a runtime component are both
addressed by one flat index, exactly as in the `m_src_comps`/`m_dst_comps`
arrays the functor is constructed with.  The pairs are processed in order;
each step performs `dst_data[i_dst] = src_data[i_src]` on one destination
component. -/
def applyCopies (α : Type) (src : ℕ → α) :
    List (ℕ × ℕ) → (ℕ → α) → (ℕ → α)
  | [], dst => dst
  | p :: ps, dst => applyCopies α src ps (Function.update dst p.2 (src p.1))

/-- Modelled from the spec: `getSmartCopyTag` (declared in SmartUtils.H,
which is not in src).  Per the documented behaviour quoted in
src/unnamed/part_001 lines 24-27 ("if a given component name is found in
both the src and the dst, then the src value is copied"), a component pair
enters the tag iff its name occurs on both sides.  `src_index` is the
src name-to-component map (std::map semantics), `dst_name` gives the name
of each flat dst component, `ndst` the number of dst components. -/
def getSmartCopyTag (β : Type) (src_index : β → Option ℕ)
    (dst_name : ℕ → β) (ndst : ℕ) : List (ℕ × ℕ) :=
  (List.range ndst).filterMap fun d => (src_index (dst_name d)).map fun s => (s, d)

/-- `SmartCopy::operator()` on one destination particle (embedded from
src/unnamed/part_001 lines 46-122): every destination component is first
set to its policy default — `initVal j` models `initializeRealValue` /
`initializeIntValue` of DefaultInitialization.H (not in src) applied to
`m_policy[j]` — and then the name-shared components are copied in order. -/
def SmartCopy (α β : Type) (initVal : ℕ → α) (src_index : β → Option ℕ)
    (dst_name : ℕ → β) (ndst : ℕ) (src : ℕ → α) : ℕ → α :=
  applyCopies α src (getSmartCopyTag β src_index dst_name ndst)
    (fun j => initVal j)

/-- A concrete example mode content, used by the witnesses. -/
noncomputable def exampleFields : SpectralFields :=
  ⟨1, 2, 3, 4, 5, 6, 3, 0, 0, 1, 2, 0, 0⟩

/-- The example wavevector (1,0,0), used by the witnesses. -/
def exampleK : Vec3 := ⟨1, 0, 0⟩

/-- A concrete instance of the abstract Galilean closed forms, used by the
witnesses. -/
def trivialGalileanForms : GalileanForms :=
  ⟨fun _ _ _ _ _ => 0, fun _ _ _ _ _ => 0,
   fun _ _ _ _ _ => 0, fun _ _ _ _ _ => 0⟩

end WarpX

namespace WarpX

@[simp] theorem Vec3.zero_x : (0 : Vec3).x = 0 := rfl

@[simp] theorem Vec3.zero_y : (0 : Vec3).y = 0 := rfl

@[simp] theorem Vec3.zero_z : (0 : Vec3).z = 0 := rfl

/-- knormSq is zero only at the zero wavevector. -/
theorem knormSq_eq_zero_iff (k : Vec3) : knormSq k = 0 ↔ k = 0 := by
  unfold knormSq
  constructor
  · intro h
    have hx : k.x = 0 := by nlinarith [sq_nonneg k.x, sq_nonneg k.y, sq_nonneg k.z]
    have hy : k.y = 0 := by nlinarith [sq_nonneg k.x, sq_nonneg k.y, sq_nonneg k.z]
    have hz : k.z = 0 := by nlinarith [sq_nonneg k.x, sq_nonneg k.y, sq_nonneg k.z]
    ext <;> simp [hx, hy, hz]
  · intro h
    subst h
    simp

/-- The correction leaves both time levels of rho in place. -/
theorem CurrentCorrection_rho_new (dt : ℝ) (k : Vec3) (f : SpectralFields) :
    (CurrentCorrection dt k f).rho_new = f.rho_new := by
  unfold CurrentCorrection
  split <;> rfl

/-- The correction leaves both time levels of rho in place. -/
theorem CurrentCorrection_rho_old (dt : ℝ) (k : Vec3) (f : SpectralFields) :
    (CurrentCorrection dt k f).rho_old = f.rho_old := by
  unfold CurrentCorrection
  split <;> rfl

/-- Key algebraic fact shared by the continuity and idempotence claims:
after the correction, `k . J` hits the discretized continuity target. -/
theorem CurrentCorrection_kdotJ (dt : ℝ) (k : Vec3) (f : SpectralFields)
    (hk : k ≠ 0) :
    kdotJ k (CurrentCorrection dt k f) = -(f.rho_new - f.rho_old) / (dt : ℂ) := by
  have hks : knormSq k ≠ 0 := fun h => hk ((knormSq_eq_zero_iff k).mp h)
  have hksC : ((knormSq k : ℝ) : ℂ) ≠ 0 := by
    exact_mod_cast Complex.ofReal_ne_zero.mpr hks
  unfold CurrentCorrection
  rw [if_neg hk]
  unfold kdotJ projCoef kdotJ
  have hexp : ((knormSq k : ℝ) : ℂ) =
      (k.x : ℂ) ^ 2 + (k.y : ℂ) ^ 2 + (k.z : ℂ) ^ 2 := by
    unfold knormSq
    push_cast
    ring
  field_simp
  ring_nf
  rw [← sub_eq_zero]
  field_simp [hexp] at *
  ring

/-- The example wavevector is nonzero. -/
theorem exampleK_ne_zero : exampleK ≠ 0 := by
  intro h
  have h1 := congrArg Vec3.x h
  simp [exampleK] at h1

/-- C1: for every Fourier mode with nonzero wavevector `k`, after one
application of `CurrentCorrection` (the `correctCurrent` operation) to a
`SpectralFieldData` holding `J` and the two time levels of `rho`, the
corrected current satisfies `k . J = -(rho_new - rho_old)/dt` — the
discretized continuity equation — and the `k = 0` mode of `J` is left
unchanged (in fact the whole mode is untouched). -/
theorem claim_C1_correctCurrent_continuity (dt : ℝ) (k : Vec3)
    (f : SpectralFields) :
    (k ≠ 0 →
      kdotJ k (CurrentCorrection dt k f) =
        -(f.rho_new - f.rho_old) / (dt : ℂ)) ∧
    CurrentCorrection dt 0 f = f := by
  constructor
  · intro hk
    exact CurrentCorrection_kdotJ dt k f hk
  · unfold CurrentCorrection
    rw [if_pos rfl]

/-- Witness for C1 at the concrete mode `k = (1,0,0)`, `dt = 1`, and the
example field content. -/
theorem claim_C1_witness :
    exampleK ≠ 0 ∧
    kdotJ exampleK (CurrentCorrection 1 exampleK exampleFields) =
      -(exampleFields.rho_new - exampleFields.rho_old) / ((1 : ℝ) : ℂ) :=
  ⟨exampleK_ne_zero,
    (claim_C1_correctCurrent_continuity 1 exampleK exampleFields).1
      exampleK_ne_zero⟩

/-- C5: `correctCurrent` is idempotent: applying `CurrentCorrection` a
second time (rho being untouched by the operation) changes nothing — over
the exact real-number semantics of the model, the second application is
the identity on every slot, `J` included. -/
theorem claim_C5_correctCurrent_idempotent (dt : ℝ) (k : Vec3)
    (f : SpectralFields) :
    CurrentCorrection dt k (CurrentCorrection dt k f) =
      CurrentCorrection dt k f := by
  by_cases hk : k = 0
  · subst hk
    unfold CurrentCorrection
    simp
  · set g := CurrentCorrection dt k f with hg
    have hproj : projCoef dt k g = 0 := by
      unfold projCoef
      rw [hg, CurrentCorrection_kdotJ dt k f hk, CurrentCorrection_rho_new,
        CurrentCorrection_rho_old]
      rw [show -(f.rho_new - f.rho_old) / (dt : ℂ) +
            (f.rho_new - f.rho_old) / (dt : ℂ) = 0 from by ring]
      rw [zero_div]
    unfold CurrentCorrection
    rw [if_neg hk, hproj]
    simp

/-- C2: for every mode with `k ≠ 0` the coefficient `S_ck` produced by the
coefficient initialization equals `sin(c k dt)/(c k)`, and at the `k = 0`
mode `S_ck` equals `dt` exactly — the analytic limit, not the result of a
division by zero (the `k = 0` branch never forms `sin(0)/0`; the
real-number model has no NaN). -/
theorem claim_C2_S_ck_coefficient (gf : GalileanForms) (c eps0 : ℝ)
    (v : Vec3) (dt : ℝ) :
    (∀ k : Vec3, k ≠ 0 →
      (InitializeSpectralCoefficients gf c eps0 v dt k).S_ck =
        Real.sin (c * knorm k * dt) / (c * knorm k)) ∧
    (InitializeSpectralCoefficients gf c eps0 v dt 0).S_ck = dt := by
  constructor
  · intro k hk
    unfold InitializeSpectralCoefficients
    rw [if_neg hk]
  · unfold InitializeSpectralCoefficients
    rw [if_pos rfl]
    rfl

/-- Witness for C2 at the concrete mode `k = (1,0,0)` with `c = eps0 = 1`,
`v = 0`, `dt = 1`. -/
theorem claim_C2_witness :
    exampleK ≠ 0 ∧
    (InitializeSpectralCoefficients trivialGalileanForms 1 1 0 1
        exampleK).S_ck =
      Real.sin (1 * knorm exampleK * 1) / (1 * knorm exampleK) :=
  ⟨exampleK_ne_zero,
    (claim_C2_S_ck_coefficient trivialGalileanForms 1 1 0 1).1 exampleK
      exampleK_ne_zero⟩

/-- C3: at the `k = 0` mode, `pushSpectralFields` applied to any mode
content (a spatially uniform field with uniform current `J`) produces
exactly the discretized closed-form solution of `dE/dt = -J/eps0` over
one step: `E_new = E - (dt/eps0) J` componentwise, with `B` unchanged —
for every input `E`, `B`, `J`, every Galilean velocity, and every flag
combination. -/
theorem claim_C3_zero_mode_ode (gf : GalileanForms) (c eps0 : ℝ) (v : Vec3)
    (dt : ℝ) (fl : PushFlags) (f : SpectralFields) :
    (pushSpectralFields c eps0
        (InitializeSpectralCoefficients gf c eps0 v dt 0) fl 0 f).Ex =
      f.Ex - ((dt / eps0 : ℝ) : ℂ) * f.Jx ∧
    (pushSpectralFields c eps0
        (InitializeSpectralCoefficients gf c eps0 v dt 0) fl 0 f).Ey =
      f.Ey - ((dt / eps0 : ℝ) : ℂ) * f.Jy ∧
    (pushSpectralFields c eps0
        (InitializeSpectralCoefficients gf c eps0 v dt 0) fl 0 f).Ez =
      f.Ez - ((dt / eps0 : ℝ) : ℂ) * f.Jz ∧
    (pushSpectralFields c eps0
        (InitializeSpectralCoefficients gf c eps0 v dt 0) fl 0 f).Bx = f.Bx ∧
    (pushSpectralFields c eps0
        (InitializeSpectralCoefficients gf c eps0 v dt 0) fl 0 f).By = f.By ∧
    (pushSpectralFields c eps0
        (InitializeSpectralCoefficients gf c eps0 v dt 0) fl 0 f).Bz =
      f.Bz := by
  refine ⟨?_, ?_, ?_, ?_, ?_, ?_⟩ <;>
    simp [pushSpectralFields, InitializeSpectralCoefficients,
      zeroModeCoeffs] <;>
    ring

/-- C4: with the Galilean velocity set to the zero vector, coefficient
initialization produces `T2 = 1` for every Fourier mode, and the whole
coefficient record coincides, mode for mode, with the non-Galilean
variant's — the dispatch takes the identical non-Galilean formula path,
for every abstract choice of the Galilean-branch closed forms. -/
theorem claim_C4_galilean_reduction (gf : GalileanForms) (c eps0 dt : ℝ) :
    (∀ k : Vec3,
      (InitializeSpectralCoefficients gf c eps0 0 dt k).T2 = 1) ∧
    (∀ k : Vec3,
      InitializeSpectralCoefficients gf c eps0 0 dt k =
        InitializeSpectralCoefficientsNonGalilean c eps0 dt k) := by
  have h2 : ∀ k : Vec3,
      InitializeSpectralCoefficients gf c eps0 0 dt k =
        InitializeSpectralCoefficientsNonGalilean c eps0 dt k := by
    intro k
    unfold InitializeSpectralCoefficients
      InitializeSpectralCoefficientsNonGalilean
    by_cases hk : k = 0
    · rw [if_pos hk, if_pos hk]
    · rw [if_neg hk, if_neg hk]
      simp [Vec3.dot]
  refine ⟨fun k => ?_, h2⟩
  rw [h2 k]
  unfold InitializeSpectralCoefficientsNonGalilean
  by_cases hk : k = 0
  · rw [if_pos hk]
    rfl
  · rw [if_neg hk]

/-- C6: `pushSpectralFields` writes only the `E`, `B` (and, when the
corresponding cleaning flag is set, `F`, `G`) slots: for every input the
three `J` slots and both time levels of `rho` come back unchanged, and
with a cleaning flag off the corresponding auxiliary slot is untouched
too; the operation's only effect is the returned (in-place mutated)
field record. -/
theorem claim_C6_push_frame (c eps0 : ℝ) (co : Coeffs)
    (uwr dive divb : Bool) (k : Vec3) (f : SpectralFields) :
    (pushSpectralFields c eps0 co ⟨uwr, dive, divb⟩ k f).Jx = f.Jx ∧
    (pushSpectralFields c eps0 co ⟨uwr, dive, divb⟩ k f).Jy = f.Jy ∧
    (pushSpectralFields c eps0 co ⟨uwr, dive, divb⟩ k f).Jz = f.Jz ∧
    (pushSpectralFields c eps0 co ⟨uwr, dive, divb⟩ k f).rho_old =
      f.rho_old ∧
    (pushSpectralFields c eps0 co ⟨uwr, dive, divb⟩ k f).rho_new =
      f.rho_new ∧
    (pushSpectralFields c eps0 co ⟨uwr, false, divb⟩ k f).F = f.F ∧
    (pushSpectralFields c eps0 co ⟨uwr, dive, false⟩ k f).G = f.G :=
  ⟨rfl, rfl, rfl, rfl, rfl, rfl, rfl⟩

/-- C7: the solver instance is a two-state machine over
{CoefficientsStale, CoefficientsReady}: every change of the time step or
of the Galilean velocity moves it to CoefficientsStale; an event lands in
CoefficientsReady exactly when it is coefficient initialization; and a
push attempted in CoefficientsStale fails fast as a precondition
violation (never silently producing fields), while in CoefficientsReady
it performs the spectral push. -/
theorem claim_C7_state_machine :
    (∀ (s : SolverInstance) (dt' : ℝ),
      (applyEvent s (SolverEvent.setTimeStep dt')).phase =
        CoeffPhase.CoefficientsStale) ∧
    (∀ (s : SolverInstance) (v' : Vec3),
      (applyEvent s (SolverEvent.setGalileanVelocity v')).phase =
        CoeffPhase.CoefficientsStale) ∧
    (∀ (s : SolverInstance) (e : SolverEvent),
      (applyEvent s e).phase = CoeffPhase.CoefficientsReady ↔
        e = SolverEvent.initCoefficients) ∧
    (∀ (gf : GalileanForms) (c eps0 : ℝ) (fl : PushFlags) (dt : ℝ)
        (v k : Vec3) (f : SpectralFields),
      tryPushSpectralFields gf c eps0 fl
        ⟨CoeffPhase.CoefficientsStale, dt, v⟩ k f =
        PushResult.precondViolation) ∧
    (∀ (gf : GalileanForms) (c eps0 : ℝ) (fl : PushFlags) (dt : ℝ)
        (v k : Vec3) (f : SpectralFields),
      tryPushSpectralFields gf c eps0 fl
        ⟨CoeffPhase.CoefficientsReady, dt, v⟩ k f =
        PushResult.ok (pushSpectralFields c eps0
          (InitializeSpectralCoefficients gf c eps0 v dt k) fl k f)) := by
  refine ⟨fun s dt' => rfl, fun s v' => rfl, fun s e => ?_,
    fun gf c eps0 fl dt v k f => rfl, fun gf c eps0 fl dt v k f => rfl⟩
  cases e <;> simp [applyEvent]

/-- C8: the time-averaging coefficient set is built exactly when time
averaging is requested at construction — for every Galilean velocity,
the zero vector included — and it influences only the averaged-output
path: the raw push result is identical for every averaging request and
every choice of the averaging combination. -/
theorem claim_C8_averaging (gf : GalileanForms) (af af' : AvgForms)
    (c eps0 : ℝ) (v : Vec3) (dt : ℝ) :
    (buildSolverCoefficients gf af c eps0 v dt true).avg.isSome = true ∧
    (buildSolverCoefficients gf af c eps0 v dt false).avg = none ∧
    (∀ (ta ta' : Bool) (fl : PushFlags) (k : Vec3) (f : SpectralFields),
      rawPush c eps0 (buildSolverCoefficients gf af c eps0 v dt ta) fl k f =
        rawPush c eps0 (buildSolverCoefficients gf af' c eps0 v dt ta')
          fl k f) ∧
    (∀ k : Vec3,
      averagedCoefficients
          (buildSolverCoefficients gf af c eps0 v dt true) k =
        some (af.build
          (InitializeSpectralCoefficients gf c eps0 v dt k).C
          (InitializeSpectralCoefficients gf c eps0 v dt k).S_ck
          (InitializeSpectralCoefficients gf c eps0 v dt k).T2)) :=
  ⟨rfl, rfl, fun _ _ _ _ _ => rfl, fun _ => rfl⟩

/-- C9: on every level solved by the multigrid path of `computePhi` (that
is, every level except level 0 when the integrated-Green-function solver
is selected), the caller's charge-density array is multiplied in place by
`-1/ep0` before the solve and never restored: on return it holds
`-rho_original/ep0` at every cell, not the values passed in. -/
theorem claim_C9_computePhi_rho_scaling (ι : Type)
    (is_solver_igf_on_lev0 : Bool) (ep0 : ℝ) (n : ℕ) (rho : Fin n → ι → ℝ)
    (lev : Fin n) (i : ι)
    (h : ¬(is_solver_igf_on_lev0 = true ∧ (lev : ℕ) = 0)) :
    computePhiRho ι is_solver_igf_on_lev0 ep0 n rho lev i =
      -(rho lev i) / ep0 := by
  unfold computePhiRho computePhiRhoLevel
  rw [if_neg h]
  show rho lev i * (-1 / ep0) = -(rho lev i) / ep0
  ring

/-- Witness for C9: one level, multigrid path, `ep0 = 2`, uniform
`rho = 3`. -/
theorem claim_C9_witness :
    ¬((false : Bool) = true ∧ (((0 : Fin 1) : ℕ) = 0)) ∧
    computePhiRho Unit false 2 1 (fun _ _ => 3) 0 () = -(3 : ℝ) / 2 := by
  refine ⟨by simp, ?_⟩
  exact claim_C9_computePhi_rho_scaling Unit false 2 1 (fun _ _ => 3) 0 ()
    (by simp)

/-- Components the copy loops never target keep their value. -/
theorem applyCopies_not_mem (α : Type) (src : ℕ → α) (ps : List (ℕ × ℕ))
    (dst : ℕ → α) (d : ℕ) (h : d ∉ ps.map Prod.snd) :
    applyCopies α src ps dst d = dst d := by
  induction ps generalizing dst with
  | nil => rfl
  | cons p ps ih =>
      have h1 : d ≠ p.2 := fun he => h (by simp [he])
      have h2 : d ∉ ps.map Prod.snd := fun hm => h (by simp [hm])
      show applyCopies α src ps (Function.update dst p.2 (src p.1)) d = dst d
      rw [ih _ h2, Function.update_noteq h1]

/-- The copy loops over an appended pair list factor sequentially. -/
theorem applyCopies_append (α : Type) (src : ℕ → α) (l1 l2 : List (ℕ × ℕ))
    (dst : ℕ → α) :
    applyCopies α src (l1 ++ l2) dst =
      applyCopies α src l2 (applyCopies α src l1 dst) := by
  induction l1 generalizing dst with
  | nil => rfl
  | cons p ps ih =>
      show applyCopies α src (ps ++ l2) (Function.update dst p.2 (src p.1)) =
        _
      rw [ih]
      rfl

/-- A component whose pair is not overwritten later holds the source
value. -/
theorem applyCopies_last (α : Type) (src : ℕ → α) (l1 : List (ℕ × ℕ))
    (p : ℕ × ℕ) (l2 : List (ℕ × ℕ)) (dst : ℕ → α)
    (h : p.2 ∉ l2.map Prod.snd) :
    applyCopies α src (l1 ++ p :: l2) dst p.2 = src p.1 := by
  rw [applyCopies_append]
  show applyCopies α src l2
    (Function.update (applyCopies α src l1 dst) p.2 (src p.1)) p.2 = src p.1
  rw [applyCopies_not_mem α src l2 _ _ h, Function.update_same]

/-- Membership in the modelled smart-copy tag: a pair `(s, d)` is tagged
iff `d` is a destination component whose name the source maps to
component `s`. -/
theorem mem_getSmartCopyTag (β : Type) (src_index : β → Option ℕ)
    (dst_name : ℕ → β) (ndst : ℕ) (s d : ℕ) :
    (s, d) ∈ getSmartCopyTag β src_index dst_name ndst ↔
      d < ndst ∧ src_index (dst_name d) = some s := by
  unfold getSmartCopyTag
  rw [List.mem_filterMap]
  constructor
  · rintro ⟨a, ha, he⟩
    rw [Option.map_eq_some'] at he
    obtain ⟨x, hx, hxy⟩ := he
    injection hxy with h1 h2
    subst h1
    subst h2
    exact ⟨List.mem_range.mp ha, hx⟩
  · rintro ⟨h1, h2⟩
    refine ⟨d, List.mem_range.mpr h1, ?_⟩
    rw [h2]
    rfl

/-- Each destination component occurs at most once in the tag. -/
theorem getSmartCopyTag_snd_nodup (β : Type) (src_index : β → Option ℕ)
    (dst_name : ℕ → β) (ndst : ℕ) :
    ((getSmartCopyTag β src_index dst_name ndst).map Prod.snd).Nodup := by
  unfold getSmartCopyTag
  rw [List.map_filterMap]
  refine List.Nodup.filterMap ?_ (List.nodup_range ndst)
  intro a a' b hb hb'
  simp only [Option.map_map, Option.mem_def, Option.map_eq_some',
    Function.comp] at hb hb'
  obtain ⟨x, _, hxb⟩ := hb
  obtain ⟨x', _, hxb'⟩ := hb'
  rw [hxb, hxb']

/-- C10: for a destination particle of a `SmartCopy`, every component is
first set to its policy default; then exactly the name-shared components
are copied from the source.  Hence a destination component whose name has
no source counterpart equals its policy default after the copy, and a
destination component whose name the source carries holds the source's
same-named component value. -/
theorem claim_C10_smart_copy (α β : Type) (initVal : ℕ → α)
    (src_index : β → Option ℕ) (dst_name : ℕ → β) (ndst : ℕ)
    (src : ℕ → α) (d : ℕ) :
    (src_index (dst_name d) = none →
      SmartCopy α β initVal src_index dst_name ndst src d = initVal d) ∧
    (∀ s : ℕ, d < ndst → src_index (dst_name d) = some s →
      SmartCopy α β initVal src_index dst_name ndst src d = src s) := by
  constructor
  · intro hnone
    unfold SmartCopy
    apply applyCopies_not_mem
    intro hmem
    rw [List.mem_map] at hmem
    obtain ⟨p, hp, hsnd⟩ := hmem
    have hp' : (p.1, d) ∈ getSmartCopyTag β src_index dst_name ndst := by
      rw [show (p.1, d) = p from by rw [← hsnd]]
      exact hp
    have := (mem_getSmartCopyTag β src_index dst_name ndst p.1 d).mp hp'
    rw [hnone] at this
    exact Option.noConfusion this.2
  · intro s hd hsome
    have hmem : (s, d) ∈ getSmartCopyTag β src_index dst_name ndst :=
      (mem_getSmartCopyTag β src_index dst_name ndst s d).mpr ⟨hd, hsome⟩
    obtain ⟨l1, l2, hsplit⟩ := List.append_of_mem hmem
    have hnodup := getSmartCopyTag_snd_nodup β src_index dst_name ndst
    rw [hsplit, List.map_append, List.map_cons] at hnodup
    have hnot : d ∉ l2.map Prod.snd :=
      (List.nodup_cons.mp (List.Nodup.of_append_right hnodup)).1
    unfold SmartCopy
    rw [hsplit]
    exact applyCopies_last α src l1 (s, d) l2 _ hnot

/-- Witness for C10: source names {5 ↦ component 1}, two destination
components named 4 and 5; component 0 (name 4, unmatched) keeps its
default `10`, component 1 (name 5, matched) receives the source's
component 1 value `101`. -/
theorem claim_C10_witness :
    SmartCopy ℕ ℕ (fun j => 10 + j)
        (fun nm => if nm = 5 then some 1 else none) (fun j => j + 4) 2
        (fun s => 100 + s) 0 = 10 ∧
    SmartCopy ℕ ℕ (fun j => 10 + j)
        (fun nm => if nm = 5 then some 1 else none) (fun j => j + 4) 2
        (fun s => 100 + s) 1 = 101 :=
  ⟨(claim_C10_smart_copy ℕ ℕ (fun j => 10 + j)
      (fun nm => if nm = 5 then some 1 else none) (fun j => j + 4) 2
      (fun s => 100 + s) 0).1 (by decide),
   (claim_C10_smart_copy ℕ ℕ (fun j => 10 + j)
      (fun nm => if nm = 5 then some 1 else none) (fun j => j + 4) 2
      (fun s => 100 + s) 1).2 1 (by decide) (by decide)⟩

end WarpX
